import Mathlib

/-!
Shallow embedding of `src/server.js` of the PartialContentServer repository
(an HTTP file server with RFC-7233-style partial content support), together
with proofs checking the natural-language specification against it.

Conventions of the embedding:
* JS numbers that only ever hold integers (byte offsets, lengths, status
  codes) are modelled as `Int` (or `Nat` for parsed digit strings);
  the DoS score, which is multiplied by the fractional constant `1.5`,
  is modelled exactly as `ℚ`.
* JS strings are modelled as Lean `String`; the `Range`-header parsing
  (`trim`, `split`, the digit regex) is implemented by total structural
  functions over `List Char` mirroring the JS semantics.
* Thrown JS errors become an explicit `ServerError` sum type returned in
  `Except`; the `catch` block of `httpListener` becomes `catchResponse`.
* The Node response object is modelled by the `Headers`/`Response`
  structures; `response.setHeader` on an already-set name overwrites, which
  the model renders as a record update of the corresponding field.
* File-system and stream I/O are external collaborators: a part's body is
  an abstract byte-span source, constrained only by its length where needed.
-/

/-! ## Character-list utilities (JS `trim`, `split`, and the digit regex) -/

/-- JS `String.prototype.split(sep)` for a one-character separator, on char
lists.  Like in JS, the result is never empty and keeps empty segments. -/
def splitOnChar (sep : Char) : List Char → List (List Char)
  | [] => [[]]
  | c :: rest =>
    match splitOnChar sep rest with
    | [] => [[c]]
    | g :: gs => if c = sep then [] :: g :: gs else (c :: g) :: gs

/-- JS `String.prototype.trim()` on char lists (drop whitespace both ends). -/
def trimWs (l : List Char) : List Char :=
  ((l.dropWhile Char.isWhitespace).reverse.dropWhile Char.isWhitespace).reverse

/-- The digit string captured by `[0-9]{0,}` just before the match position
of `\-`: the maximal digit suffix of the part left of the first dash. -/
def digitsBefore (left : List Char) : List Char :=
  (left.reverse.takeWhile Char.isDigit).reverse

/-- The digit string captured by `[0-9]{0,}` just after the dash: the
maximal digit run starting right of the first dash. -/
def digitsAfter (right : List Char) : List Char :=
  right.takeWhile Char.isDigit

/-- Split a char list at its first dash (`none` when there is no dash,
in which case the JS regex `exec` returns `null`). -/
def breakAtDash : List Char → Option (List Char × List Char)
  | [] => none
  | c :: rest =>
    if c = '-' then some ([], rest)
    else
      match breakAtDash rest with
      | some (l, r) => some (c :: l, r)
      | none => none

/-- JS `Number("<digits>")` for a non-empty digit string. -/
def digitsToNat (l : List Char) : Nat :=
  l.foldl (fun a c => a * 10 + (c.toNat - 48)) 0

/-- A captured regex group as the JS code keeps it after
`start = start ? Number(start) : start`: `none` models the empty string
(falsy, kept as a string), `some n` models the parsed number. -/
def groupToNum (g : List Char) : Option Nat :=
  if g.isEmpty then none else some (digitsToNat g)

/-- `/([0-9]{0,})\-([0-9]{0,})/g.exec(value)` (server.js line 206): the two
captured digit groups around the first dash of the item, or `none` when the
regex does not match (the JS code then crashes destructuring `null`). -/
def execRangeItem (item : List Char) : Option (Option Nat × Option Nat) :=
  match breakAtDash item with
  | none => none
  | some (l, r) => some (groupToNum (digitsBefore l), groupToNum (digitsAfter r))

/-- Decidable equality for `Except`, used to evaluate the model on
concrete inputs. -/
instance {ε α : Type} [DecidableEq ε] [DecidableEq α] : DecidableEq (Except ε α) := fun a b =>
  match a, b with
  | .error e, .error f =>
    if h : e = f then .isTrue (by rw [h]) else .isFalse (fun hc => h (by cases hc; rfl))
  | .error _, .ok _ => .isFalse (fun hc => Except.noConfusion hc)
  | .ok _, .error _ => .isFalse (fun hc => Except.noConfusion hc)
  | .ok x, .ok y =>
    if h : x = y then .isTrue (by rw [h]) else .isFalse (fun hc => h (by cases hc; rfl))

/-! ## Data model -/

/-- One byte range `{start, end}` as pushed into `byteRangeSet`
(server.js line 227).  Values are unclamped JS numbers, hence `Int`. -/
structure ByteRange where
  start : Int
  «end» : Int
deriving DecidableEq, Repr

/-- The options object of `getRanges(range, fileSize, {...})`
(server.js line 192) with the source's default values.  The source calls
the third field `partialMaxLength`; the spec calls it `maxChunkLength`,
which is the name used here. -/
structure GetRangesOptions where
  correctValues : Bool := false
  preventAtack : Bool := true
  maxChunkLength : Int := 0
deriving DecidableEq, Repr

/-- The options `httpListener` passes to `getRanges` (server.js line 68):
`{partialMaxLength}` with the module constant `524288`. -/
def listenerOpts : GetRangesOptions := { maxChunkLength := 524288 }

/-- The thrown error values: the `ERRORS` table entries (server.js lines
18-24), the not-satisfiable error enriched with `fileSize` (line 231), and
`jsError` for a raw JS runtime exception (no `statusCode` field). -/
inductive ServerError where
  | notFound
  | methodNotAllowed
  | bytesUnitNotValid
  | rangeNotSatisfable (fileSize : Int)
  | internalServerError
  | jsError
deriving DecidableEq, Repr

/-- `error.statusCode` (undefined — `none` — for a raw JS exception). -/
def ServerError.statusCode : ServerError → Option Int
  | .notFound => some 404
  | .methodNotAllowed => some 405
  | .bytesUnitNotValid => some 416
  | .rangeNotSatisfable _ => some 416
  | .internalServerError => some 500
  | .jsError => none

/-- `error.statusMessage` (undefined for a raw JS exception). -/
def ServerError.statusMessage : ServerError → Option String
  | .notFound => some "Not Found"
  | .methodNotAllowed => some "Method Not Allowed"
  | .bytesUnitNotValid => some "Bytes unit not valid"
  | .rangeNotSatisfable _ => some "Range Not Satisfable"
  | .internalServerError => some "Internal Server Error"
  | .jsError => none

/-- The string JS produces for `${error.fileSize}` in the catch block
(server.js line 125): only the not-satisfiable error carries a `fileSize`
property; for every other error the interpolation prints `undefined`. -/
def ServerError.fileSizeString : ServerError → String
  | .rangeNotSatisfable n => toString n
  | _ => "undefined"

/-! ## RangeGrammar: `getRanges` (server.js lines 192-235) -/

/-- Clamping helper `limit` (server.js line 219): clamp to `[0, fileSize-1]`
only when `correctValues` is set, otherwise the identity. -/
def limitVal (correctValues : Bool) (fileSize val : Int) : Int :=
  if correctValues then (if val < 0 then 0 else if val > fileSize - 1 then fileSize - 1 else val)
  else val

/-- Suffix/open-end expansion (server.js lines 209-217).
When the start group is empty: `start = fileSize - end; end = fileSize - 1`
(the still-string empty `end` coerces to `0` in the subtraction).
When only the end group is empty: `end = fileSize - 1`. -/
def expandItem (fileSize : Int) (g : Option Nat × Option Nat) : ByteRange :=
  match g with
  | (none, eo) =>
    { start := fileSize - (match eo with | some e => (e : Int) | none => 0),
      «end» := fileSize - 1 }
  | (some s, none) => { start := (s : Int), «end» := fileSize - 1 }
  | (some s, some e) => { start := (s : Int), «end» := (e : Int) }

/-- The `correctValues` clamping applied to both ends (server.js 220-221). -/
def limitItem (correctValues : Bool) (fileSize : Int) (r : ByteRange) : ByteRange :=
  { start := limitVal correctValues fileSize r.start,
    «end» := limitVal correctValues fileSize r.«end» }

/-- Chunk-length truncation (server.js lines 223-225): when the option is
set (non-zero, JS truthiness) and the width `end - start + 1` exceeds it,
`end` is pulled back to `start + maxChunkLength - 1`. -/
def truncateItem (maxChunkLength : Int) (r : ByteRange) : ByteRange :=
  if maxChunkLength ≠ 0 ∧ r.«end» - r.start + 1 > maxChunkLength then
    { start := r.start, «end» := r.start + maxChunkLength - 1 }
  else r

/-- Full per-item processing of one comma-separated range spec
(server.js lines 206-227, without the final push). -/
def processItem (fileSize : Int) (opts : GetRangesOptions) (g : Option Nat × Option Nat) :
    ByteRange :=
  truncateItem opts.maxChunkLength (limitItem opts.correctValues fileSize (expandItem fileSize g))

/-- The `forEach` accumulation over all items (server.js lines 205-228):
builds `byteRangeSet` in order and accumulates
`length += end - start + 1` with post-truncation values. -/
def processItems (fileSize : Int) (opts : GetRangesOptions) :
    List (Option Nat × Option Nat) → List ByteRange × Int
  | [] => ([], 0)
  | g :: gs =>
    let r := processItem fileSize opts g
    let (rs, len) := processItems fileSize opts gs
    (r :: rs, (r.«end» - r.start + 1) + len)

/-- Run the item regex over every comma-separated item; `none` as soon as
one item has no dash (the JS code crashes there). -/
def execItems : List (List Char) → Option (List (Option Nat × Option Nat))
  | [] => some []
  | i :: is =>
    match execRangeItem i, execItems is with
    | some g, some gs => some (g :: gs)
    | _, _ => none

/-- The parsing part of `getRanges` (server.js lines 198-228): unit check,
split on commas, regex and numeric expansion per item.  Returns the
byte-range set and the accumulated total length, before the DoS check. -/
def parseRangeHeader (range : String) (fileSize : Int) (opts : GetRangesOptions) :
    Except ServerError (List ByteRange × Int) :=
  match splitOnChar '=' (trimWs range.data) with
  | [] => .error .bytesUnitNotValid
  | bytesUnit :: rest =>
    if bytesUnit ≠ "bytes".data then .error .bytesUnitNotValid
    else
      match rest with
      | setStr :: _ =>
        match execItems (splitOnChar ',' setStr) with
        | none => .error .jsError
        | some gs => .ok (processItems fileSize opts gs)
      | [] => .error .jsError

/-! ## RangePolicy: `isDenialOfServiceAttacks` (server.js lines 237-272) -/

/-- `POINT_OF_NOT_SATISFABLE = 10` (server.js line 239). -/
def POINT_OF_NOT_SATISFABLE : ℚ := 10
/-- `POINT_CROSS_RANGE = 3` (server.js line 241). -/
def POINT_CROSS_RANGE : ℚ := 3
/-- `POINT_SMALL_RANGE = 2` (server.js line 243). -/
def POINT_SMALL_RANGE : ℚ := 2
/-- `SMALL_RANGE = 65536` (server.js line 244). -/
def SMALL_RANGE : Int := 65536
/-- `POINT_NOT_SORTED_MULTIPLICATOR = 1.5` (server.js line 246). -/
def POINT_NOT_SORTED_MULTIPLICATOR : ℚ := 3 / 2

/-- The two per-part additions of one loop iteration (server.js lines
253-259): `POINT_OF_NOT_SATISFABLE` when `start > end`, plus
`POINT_SMALL_RANGE` when `end - start < SMALL_RANGE`. -/
def ownPoints (v : ByteRange) : ℚ :=
  (if v.start > v.«end» then POINT_OF_NOT_SATISFABLE else 0) +
    (if v.«end» - v.start < SMALL_RANGE then POINT_SMALL_RANGE else 0)

/-- The pairwise addition of one loop iteration with `index > 0`
(server.js lines 265-267): `POINT_CROSS_RANGE` when
`max(check.end, value.end) - min(check.start, value.start)
 < (check.end - check.start) + (value.end - value.start)`. -/
def crossPoints (check v : ByteRange) : ℚ :=
  if max check.«end» v.«end» - min check.start v.start <
      (check.«end» - check.start) + (v.«end» - v.start) then POINT_CROSS_RANGE
  else 0

/-- The multiplier assignment of one loop iteration with `index > 0`
(server.js lines 262-264): set to `POINT_NOT_SORTED_MULTIPLICATOR` when
`check.end < value.start`, otherwise left unchanged. -/
def multUpdate (check v : ByteRange) (m : ℚ) : ℚ :=
  if check.«end» < v.start then POINT_NOT_SORTED_MULTIPLICATOR else m

/-- The `forEach` of `isDenialOfServiceAttacks` from the second element on:
`check` is the previous element, the accumulators are `POINT_SUM` and
`MULTIPLICATOR`.  Each iteration adds the per-part points and the pairwise
cross points and updates the multiplier (the source performs the three
conditional additions one after the other; they are grouped here). -/
def dosLoop : ByteRange → List ByteRange → ℚ → ℚ → ℚ × ℚ
  | _, [], sum, mult => (sum, mult)
  | check, value :: rest, sum, mult =>
    dosLoop value rest (sum + ownPoints value + crossPoints check value)
      (multUpdate check value mult)

/-- Final `POINT_SUM` and `MULTIPLICATOR` of the scorer's loop: the first
element only receives its per-part points (`index > 0` is false) and
becomes the first `check`; `POINT_SUM` starts at `0`, `MULTIPLICATOR`
at `1` (server.js lines 248-270). -/
def dosEval : List ByteRange → ℚ × ℚ
  | [] => (0, 1)
  | v :: rest => dosLoop v rest (0 + ownPoints v) 1

/-- `isDenialOfServiceAttacks(byteRangeSet)` (server.js lines 237-272):
`(POINT_SUM * MULTIPLICATOR) >= POINT_OF_NOT_SATISFABLE`. -/
def isDenialOfServiceAttacks (byteRangeSet : List ByteRange) : Bool :=
  decide ((dosEval byteRangeSet).1 * (dosEval byteRangeSet).2 ≥ POINT_OF_NOT_SATISFABLE)

/-- `getRanges` (server.js lines 192-235): parse, then — when
`preventAtack` is set — reject sets flagged by the DoS heuristic with the
not-satisfiable error carrying `fileSize`. -/
def getRanges (range : String) (fileSize : Int) (opts : GetRangesOptions) :
    Except ServerError (List ByteRange × Int) :=
  match parseRangeHeader range fileSize opts with
  | .error e => .error e
  | .ok (set, len) =>
    if opts.preventAtack ∧ isDenialOfServiceAttacks set then
      .error (.rangeNotSatisfable fileSize)
    else .ok (set, len)

/-! ## MultipartAssembler: `partialContentHeaders` (server.js lines 146-159)
(the Lean name avoids the source's prefix for technical reasons) -/

/-- One part's textual header block (server.js lines 150-154): the leading
`\r\n` is omitted exactly for the first part (`index ? '\r\n' : ''`). -/
def partHeader (boundary contentType : String) (fileSize : Int) (index : Nat)
    (range : ByteRange) : String :=
  (if index ≠ 0 then "\r\n" else "") ++ "--" ++ boundary ++ "\r\n" ++
    "Content-Type: " ++ contentType ++ "\r\n" ++
    "Content-Range: bytes " ++ toString range.start ++ "-" ++ toString range.«end» ++
    "/" ++ toString fileSize ++ "\r\n" ++ "\r\n"

/-- The `forEach` of the assembler: header blocks in set order plus the
accumulated `size += header.length`. -/
def multipartHeadersAux (boundary contentType : String) (fileSize : Int) :
    Nat → List ByteRange → List String × Int
  | _, [] => ([], 0)
  | i, r :: rest =>
    let h := partHeader boundary contentType fileSize i r
    let (hs, s) := multipartHeadersAux boundary contentType fileSize (i + 1) rest
    (h :: hs, (h.length : Int) + s)

/-- `partialContentHeaders(byteRangeSet, boundary, contentType, fileSize)`
(server.js lines 146-159), returning `{headers, size}`. -/
def multipartContentHeaders (byteRangeSet : List ByteRange) (boundary contentType : String)
    (fileSize : Int) : List String × Int :=
  multipartHeadersAux boundary contentType fileSize 0 byteRangeSet

/-- The closing boundary `` `\r\n--${boundary}--` `` (server.js line 73). -/
def endBoundary (boundary : String) : String :=
  "\r\n--" ++ boundary ++ "--"

/-- The wire body of a multipart response (server.js lines 83-92 and
§6 of the spec): each part's header block immediately followed by that
part's byte span, and the closing boundary after the last part.  The spans
are an abstract source `spanBody` (the filesystem collaborator); units are
chars, matching the JS `.length` accounting. -/
def multipartAssemblyAux (boundary contentType : String) (fileSize : Int)
    (spanBody : ByteRange → List Char) : Nat → List ByteRange → List Char
  | _, [] => (endBoundary boundary).data
  | i, r :: rest =>
    (partHeader boundary contentType fileSize i r).data ++ spanBody r ++
      multipartAssemblyAux boundary contentType fileSize spanBody (i + 1) rest

/-- The complete multipart body for a byte-range set. -/
def multipartAssembly (byteRangeSet : List ByteRange) (boundary contentType : String)
    (fileSize : Int) (spanBody : ByteRange → List Char) : List Char :=
  multipartAssemblyAux boundary contentType fileSize spanBody 0 byteRangeSet

/-! ## RangeRequestDispatcher: `httpListener` (server.js lines 33-134) -/

/-- The response headers the dispatcher may set, one field per header name
used by the source; `setHeader` on a present name overwrites the field. -/
structure Headers where
  contentType : Option String := none
  contentLength : Option String := none
  cacheControl : Option String := none
  acceptRanges : Option String := none
  contentRange : Option String := none
  contentDisposition : Option String := none
  allow : Option String := none
deriving DecidableEq, Repr

/-- The observable response metadata (body transmission is I/O and is not
modelled; `HEAD` only suppresses the body, never the headers). -/
structure Response where
  statusCode : Int
  statusMessage : String
  headers : Headers
deriving DecidableEq, Repr

/-- `getContentInfo(extension)` (server.js lines 136-144) with the
`rangesContentTypes` table of lines 12-16 inlined. -/
def getContentInfo (extension : String) : Bool × String :=
  if extension = ".mp4" then (true, "audio/mp4")
  else if extension = ".txt" then (true, "text")
  else if extension = ".html" then (true, "text/html; charset=UTF-8")
  else (false, "application/octet-stream")

/-- The `catch` block (server.js lines 119-131): keep the headers already
set, take `statusCode`/`statusMessage` from the error (defaulting to 500 /
`Internal Server Error`), and switch on the *status code*: 416 sets
`Content-Range: bytes */${error.fileSize}` (printing `undefined` when the
error has no `fileSize` property), 405 sets `Allow`. -/
def catchResponse (hs : Headers) (e : ServerError) : Response :=
  let code := (ServerError.statusCode e).getD 500
  let msg := (ServerError.statusMessage e).getD "Internal Server Error"
  let hs1 := if code = 416 then
      { hs with contentRange := some ("bytes */" ++ ServerError.fileSizeString e) }
    else hs
  let hs2 := if code = 405 then { hs1 with allow := some "GET,HEAD" } else hs1
  { statusCode := code, statusMessage := msg, headers := hs2 }

/-- The range-requested branch (server.js lines 64-105): parse the header
with `{partialMaxLength}`; one range gets `Content-Range` and the piped
span, several ranges get the multipart content type and the computed
`Content-Length = ranges.length + partialHeaders.size + endBoundary.length`.
An empty set would crash the JS destructuring (modelled as `jsError`). -/
def rangeBranch (rh : String) (contentType : String) (fileSize : Int) (boundary : String)
    (hs : Headers) : Response :=
  match getRanges rh fileSize listenerOpts with
  | .error e => catchResponse hs e
  | .ok (set, len) =>
    match set with
    | [] => catchResponse hs .jsError
    | [r] =>
      let cr := "bytes " ++ toString r.start ++ "-" ++ toString r.«end» ++ "/" ++
        toString fileSize
      { statusCode := 206, statusMessage := "OK",
        headers := { hs with contentRange := some cr } }
    | _ =>
      let ph := multipartContentHeaders set boundary contentType fileSize
      let cl := toString (len + ph.2 + ((endBoundary boundary).length : Int))
      { statusCode := 206, statusMessage := "OK",
        headers := { hs with
          contentType := some ("multipart/byteranges; boundary=" ++ boundary),
          contentLength := some cl } }

/-- The full-file branch (server.js lines 106-117). -/
def fullResponse (fileName : String) (hs : Headers) : Response :=
  { statusCode := 200, statusMessage := "OK",
    headers := { hs with
      contentDisposition := some ("attachment; filename=\"" ++ fileName ++ "\"") } }

/-- `httpListener` (server.js lines 33-134) restricted to its observable
header/status behaviour.  Inputs replace the external collaborators:
`fileExists` for `fs.existsSync`, `fileSize` for `fs.statSync(...).size`,
`fileName`/`fileExtension` for the path functions, `rangeHeader` for
`request.headers['range']`, and `boundary` for the generated uuid. -/
def httpListener (method : String) (fileExists : Bool) (fileName fileExtension : String)
    (fileSize : Int) (rangeHeader : Option String) (boundary : String) : Response :=
  if ¬ (method = "GET" ∨ method = "HEAD") then catchResponse {} .methodNotAllowed
  else if ¬ fileExists then catchResponse {} .notFound
  else
    let ci := getContentInfo fileExtension
    let h0 : Headers := { contentType := some ci.2, contentLength := some (toString fileSize),
                          cacheControl := some "no-cache" }
    let h1 := if ci.1 then { h0 with acceptRanges := some "bytes" } else h0
    match rangeHeader with
    | some rh =>
      if ci.1 ∧ rh ≠ "" then rangeBranch rh ci.2 fileSize boundary h1
      else fullResponse fileName h1
    | none => fullResponse fileName h1

/-! ## Specification-side definitions (for comparison against the code) -/

/-- Spec-worded overlap of two byte ranges: the intervals `[start, end]`
share at least one byte position. -/
def sharesAByte (p c : ByteRange) : Prop :=
  max p.start c.start ≤ min p.«end» c.«end»

/-- The condition under which the code's cross-points test fires, in
solved form: the intervals share at least *two* byte positions. -/
def sharesTwoBytes (p c : ByteRange) : Prop :=
  max p.start c.start < min p.«end» c.«end»

/-- Spec-worded ascending order of a byte-range set: consecutive parts have
non-decreasing start offsets. -/
def ascendingByStart (set : List ByteRange) : Prop :=
  List.Chain' (fun p c => p.start ≤ c.start) set

instance (p c : ByteRange) : Decidable (sharesAByte p c) := by
  unfold sharesAByte; infer_instance

instance (p c : ByteRange) : Decidable (sharesTwoBytes p c) := by
  unfold sharesTwoBytes; infer_instance

/-! ## Lemmas about the DoS scorer -/

theorem ownPoints_nonneg (v : ByteRange) : 0 ≤ ownPoints v := by
  unfold ownPoints POINT_OF_NOT_SATISFABLE POINT_SMALL_RANGE
  split_ifs <;> norm_num

theorem crossPoints_nonneg (p v : ByteRange) : 0 ≤ crossPoints p v := by
  unfold crossPoints POINT_CROSS_RANGE
  split_ifs <;> norm_num

theorem ownPoints_ge_ten (v : ByteRange) (h : v.«end» < v.start) :
    POINT_OF_NOT_SATISFABLE ≤ ownPoints v := by
  unfold ownPoints
  rw [if_pos h]
  have : (0 : ℚ) ≤ if v.«end» - v.start < SMALL_RANGE then POINT_SMALL_RANGE else 0 := by
    split_ifs <;> norm_num [POINT_SMALL_RANGE]
  linarith

theorem ownPoints_ge_two (v : ByteRange) (h : v.«end» - v.start < SMALL_RANGE) :
    POINT_SMALL_RANGE ≤ ownPoints v := by
  unfold ownPoints
  rw [if_pos h]
  have : (0 : ℚ) ≤ if v.start > v.«end» then POINT_OF_NOT_SATISFABLE else 0 := by
    split_ifs <;> norm_num [POINT_OF_NOT_SATISFABLE]
  linarith

/-- The inequality the source tests for cross points, solved: it holds
exactly when the two closed intervals share at least two positions. -/
theorem crossPoints_eq (p v : ByteRange) :
    crossPoints p v = if sharesTwoBytes p v then POINT_CROSS_RANGE else 0 := by
  unfold crossPoints sharesTwoBytes
  have hiff : (max p.«end» v.«end» - min p.start v.start <
      (p.«end» - p.start) + (v.«end» - v.start)) ↔
      max p.start v.start < min p.«end» v.«end» := by omega
  split_ifs with h1 h2 h2 <;> first
    | rfl
    | exact absurd (hiff.mp h1) h2
    | exact absurd (hiff.mpr h2) h1

theorem dosLoop_sum_le (rest : List ByteRange) : ∀ (check : ByteRange) (sum mult : ℚ),
    sum ≤ (dosLoop check rest sum mult).1 := by
  induction rest with
  | nil => intro check sum mult; simp [dosLoop]
  | cons v tl ih =>
    intro check sum mult
    have h1 := ownPoints_nonneg v
    have h2 := crossPoints_nonneg check v
    have h3 := ih v (sum + ownPoints v + crossPoints check v) (multUpdate check v mult)
    simp only [dosLoop]
    linarith

theorem dosLoop_mult_ge_one (rest : List ByteRange) : ∀ (check : ByteRange) (sum mult : ℚ),
    1 ≤ mult → 1 ≤ (dosLoop check rest sum mult).2 := by
  induction rest with
  | nil => intro check sum mult h; simpa [dosLoop] using h
  | cons v tl ih =>
    intro check sum mult h
    simp only [dosLoop]
    apply ih
    unfold multUpdate POINT_NOT_SORTED_MULTIPLICATOR
    split_ifs <;> [norm_num; exact h]

theorem dosLoop_le_of_mem (rest : List ByteRange) : ∀ (check : ByteRange) (sum mult : ℚ)
    (r : ByteRange), r ∈ rest → sum + ownPoints r ≤ (dosLoop check rest sum mult).1 := by
  induction rest with
  | nil => intro _ _ _ _ h; cases h
  | cons v tl ih =>
    intro check sum mult r hr
    simp only [dosLoop]
    have hcr := crossPoints_nonneg check v
    have hov := ownPoints_nonneg v
    rcases List.mem_cons.mp hr with rfl | htl
    · have := dosLoop_sum_le tl r (sum + ownPoints r + crossPoints check r)
        (multUpdate check r mult)
      linarith
    · have := ih v (sum + ownPoints v + crossPoints check v) (multUpdate check v mult) r htl
      linarith

theorem dosEval_sum_nonneg (set : List ByteRange) : 0 ≤ (dosEval set).1 := by
  cases set with
  | nil => simp [dosEval]
  | cons v tl =>
    have h := ownPoints_nonneg v
    have := dosLoop_sum_le tl v (0 + ownPoints v) 1
    simp only [dosEval]
    linarith

theorem dosEval_mult_ge_one (set : List ByteRange) : 1 ≤ (dosEval set).2 := by
  cases set with
  | nil => simp [dosEval]
  | cons v tl => exact dosLoop_mult_ge_one tl v (0 + ownPoints v) 1 le_rfl

/-- Whenever the accumulated point sum reaches the threshold, the scorer
flags the set (the multiplier can only increase the product). -/
theorem dos_true_of_sum (set : List ByteRange)
    (h : POINT_OF_NOT_SATISFABLE ≤ (dosEval set).1) : isDenialOfServiceAttacks set = true := by
  unfold isDenialOfServiceAttacks
  have hm := dosEval_mult_ge_one set
  have h0 : (0 : ℚ) ≤ (dosEval set).1 := dosEval_sum_nonneg set
  have : (dosEval set).1 ≤ (dosEval set).1 * (dosEval set).2 :=
    le_mul_of_one_le_right h0 hm
  exact decide_eq_true (by linarith)

/-- A part with `start > end` anywhere in the set forces the score over
the threshold. -/
theorem dos_true_of_invalid_mem (set : List ByteRange) (r : ByteRange) (hr : r ∈ set)
    (hinv : r.«end» < r.start) : isDenialOfServiceAttacks set = true := by
  apply dos_true_of_sum
  cases set with
  | nil => cases hr
  | cons v tl =>
    simp only [dosEval]
    rcases List.mem_cons.mp hr with rfl | htl
    · have h1 := ownPoints_ge_ten r hinv
      have := dosLoop_sum_le tl r (0 + ownPoints r) 1
      linarith
    · have h1 := ownPoints_ge_ten r hinv
      have h2 := ownPoints_nonneg v
      have := dosLoop_le_of_mem tl v (0 + ownPoints v) 1 r htl
      linarith

/-- Loop lower bound along a chain of pairwise-overlapping small parts:
every iteration certainly collects the 2 small points and the 3 cross
points. -/
theorem dosLoop_chain_ge (rest : List ByteRange) : ∀ (check : ByteRange) (sum mult : ℚ),
    (∀ r ∈ rest, r.«end» - r.start + 1 < 65536) →
    List.Chain sharesTwoBytes check rest →
    sum + 5 * rest.length ≤ (dosLoop check rest sum mult).1 := by
  induction rest with
  | nil => intro check sum mult _ _; simp [dosLoop]
  | cons v tl ih =>
    intro check sum mult hsmall hchain
    rcases List.chain_cons.mp hchain with ⟨hcv, htlchain⟩
    have hsm : v.«end» - v.start < SMALL_RANGE := by
      have := hsmall v (List.mem_cons_self v tl)
      unfold SMALL_RANGE
      omega
    have hown : POINT_SMALL_RANGE ≤ ownPoints v := ownPoints_ge_two v hsm
    have hcross : crossPoints check v = POINT_CROSS_RANGE := by
      rw [crossPoints_eq, if_pos hcv]
    have hih := ih v (sum + ownPoints v + crossPoints check v) (multUpdate check v mult)
      (fun r hr => hsmall r (List.mem_cons_of_mem v hr)) htlchain
    simp only [dosLoop, List.length_cons]
    push_cast
    push_cast at hih
    norm_num [POINT_SMALL_RANGE, POINT_CROSS_RANGE] at hown hcross ⊢
    linarith

/-! ## Lemmas about parsing and assembly -/

theorem processItems_cons (fileSize : Int) (opts : GetRangesOptions)
    (g : Option Nat × Option Nat) (gs : List (Option Nat × Option Nat)) :
    processItems fileSize opts (g :: gs) =
      (processItem fileSize opts g :: (processItems fileSize opts gs).1,
        ((processItem fileSize opts g).«end» - (processItem fileSize opts g).start + 1) +
          (processItems fileSize opts gs).2) := rfl

/-- The accumulated `length` of `getRanges` is the sum of the
post-truncation widths of the produced ranges. -/
theorem processItems_len (fileSize : Int) (opts : GetRangesOptions) :
    ∀ gs : List (Option Nat × Option Nat),
      (processItems fileSize opts gs).2 =
        (((processItems fileSize opts gs).1).map (fun r => r.«end» - r.start + 1)).sum := by
  intro gs
  induction gs with
  | nil => simp [processItems]
  | cons g tl ih => rw [processItems_cons]; simp [ih]

theorem parseRangeHeader_ok_len (range : String) (fileSize : Int) (opts : GetRangesOptions)
    (set : List ByteRange) (len : Int)
    (h : parseRangeHeader range fileSize opts = .ok (set, len)) :
    len = (set.map (fun r => r.«end» - r.start + 1)).sum := by
  unfold parseRangeHeader at h
  split at h
  · cases h
  · split at h
    · cases h
    · split at h
      · split at h
        · cases h
        · rename_i gs heq
          rw [Except.ok.injEq] at h
          have h1 : set = (processItems fileSize opts gs).1 := by
            rw [h]
          have h2 : len = (processItems fileSize opts gs).2 := by
            rw [h]
          rw [h1, h2, processItems_len]
      · cases h

theorem getRanges_ok_parse (range : String) (fileSize : Int) (opts : GetRangesOptions)
    (set : List ByteRange) (len : Int)
    (h : getRanges range fileSize opts = .ok (set, len)) :
    parseRangeHeader range fileSize opts = .ok (set, len) := by
  unfold getRanges at h
  split at h
  · cases h
  · rename_i p heq
    split at h
    · cases h
    · rw [Except.ok.injEq] at h
      rw [heq, h]

theorem getRanges_error_of_dos (range : String) (fileSize : Int) (opts : GetRangesOptions)
    (set : List ByteRange) (len : Int)
    (hparse : parseRangeHeader range fileSize opts = .ok (set, len))
    (hprev : opts.preventAtack = true)
    (hdos : isDenialOfServiceAttacks set = true) :
    getRanges range fileSize opts = .error (.rangeNotSatisfable fileSize) := by
  unfold getRanges
  rw [hparse]
  simp [hprev, hdos]

/-- A Lean string's length is the length of its character list. -/
theorem string_length_data (s : String) : s.data.length = s.length := rfl

theorem multipartHeadersAux_cons (boundary contentType : String) (fileSize : Int) (i : Nat)
    (r : ByteRange) (rest : List ByteRange) :
    multipartHeadersAux boundary contentType fileSize i (r :: rest) =
      (partHeader boundary contentType fileSize i r ::
          (multipartHeadersAux boundary contentType fileSize (i + 1) rest).1,
        ((partHeader boundary contentType fileSize i r).length : Int) +
          (multipartHeadersAux boundary contentType fileSize (i + 1) rest).2) := rfl

/-- The assembler's `size` accumulator is the sum of the lengths of the
header blocks it returns. -/
theorem multipartHeadersAux_size (boundary contentType : String) (fileSize : Int) :
    ∀ (set : List ByteRange) (i : Nat),
      (multipartHeadersAux boundary contentType fileSize i set).2 =
        (((multipartHeadersAux boundary contentType fileSize i set).1).map
          (fun h => (h.length : Int))).sum := by
  intro set
  induction set with
  | nil => intro i; simp [multipartHeadersAux]
  | cons r rest ih => intro i; rw [multipartHeadersAux_cons]; simp [ih]

/-- Length of the reconstructed multipart body: header-block lengths plus
span lengths plus the closing boundary. -/
theorem multipartAssemblyAux_length (boundary contentType : String) (fileSize : Int)
    (spanBody : ByteRange → List Char) :
    ∀ (set : List ByteRange) (i : Nat),
      ((multipartAssemblyAux boundary contentType fileSize spanBody i set).length : Int) =
        (((multipartHeadersAux boundary contentType fileSize i set).1).map
            (fun h => (h.length : Int))).sum +
          (set.map (fun r => ((spanBody r).length : Int))).sum +
          ((endBoundary boundary).length : Int) := by
  intro set
  induction set with
  | nil =>
    intro i
    show (((endBoundary boundary).data.length : Int)) =
      (([] : List String).map (fun h => (h.length : Int))).sum +
        (([] : List ByteRange).map (fun r => ((spanBody r).length : Int))).sum +
        ((endBoundary boundary).length : Int)
    simp [string_length_data]
  | cons r rest ih =>
    intro i
    rw [multipartHeadersAux_cons]
    show ((((partHeader boundary contentType fileSize i r).data ++ spanBody r ++
        multipartAssemblyAux boundary contentType fileSize spanBody (i + 1) rest).length : Int)) = _
    dsimp only
    rw [List.length_append, List.length_append]
    push_cast
    rw [ih (i + 1)]
    simp only [List.map_cons, List.sum_cons]
    rw [string_length_data]
    ring

/-! ## Lemmas about the dispatcher -/

/-- The headers `httpListener` has set when it enters the range branch
for a range-supporting extension. -/
def rangeEntryHeaders (ext : String) (fileSize : Int) : Headers :=
  { contentType := some (getContentInfo ext).2, contentLength := some (toString fileSize),
    cacheControl := some "no-cache", acceptRanges := some "bytes" }

theorem httpListener_range (fileName ext : String) (fileSize : Int) (rh boundary : String)
    (hsupp : (getContentInfo ext).1 = true) (hrh : rh ≠ "") :
    httpListener "GET" true fileName ext fileSize (some rh) boundary =
      rangeBranch rh (getContentInfo ext).2 fileSize boundary
        (rangeEntryHeaders ext fileSize) := by
  simp [httpListener, hsupp, hrh, rangeEntryHeaders]

theorem rangeBranch_error (rh contentType : String) (fileSize : Int) (boundary : String)
    (hs : Headers) (e : ServerError)
    (hget : getRanges rh fileSize listenerOpts = .error e) :
    rangeBranch rh contentType fileSize boundary hs = catchResponse hs e := by
  simp [rangeBranch, hget]

theorem rangeBranch_single (rh contentType : String) (fileSize : Int) (boundary : String)
    (hs : Headers) (r : ByteRange) (len : Int)
    (hget : getRanges rh fileSize listenerOpts = .ok ([r], len)) :
    rangeBranch rh contentType fileSize boundary hs =
      { statusCode := 206, statusMessage := "OK",
        headers := { hs with contentRange := some ("bytes " ++ toString r.start ++ "-" ++
          toString r.«end» ++ "/" ++ toString fileSize) } } := by
  simp [rangeBranch, hget]

theorem rangeBranch_multi (rh contentType : String) (fileSize : Int) (boundary : String)
    (hs : Headers) (a b : ByteRange) (rest : List ByteRange) (len : Int)
    (hget : getRanges rh fileSize listenerOpts = .ok (a :: b :: rest, len)) :
    rangeBranch rh contentType fileSize boundary hs =
      { statusCode := 206, statusMessage := "OK",
        headers := { hs with
          contentType := some ("multipart/byteranges; boundary=" ++ boundary),
          contentLength := some (toString (len +
            (multipartContentHeaders (a :: b :: rest) boundary contentType fileSize).2 +
            ((endBoundary boundary).length : Int))) } } := by
  simp [rangeBranch, hget]

theorem catchResponse_notSatisfable (hs : Headers) (n : Int) :
    catchResponse hs (.rangeNotSatisfable n) =
      { statusCode := 416, statusMessage := "Range Not Satisfable",
        headers := { hs with contentRange := some ("bytes */" ++ toString n) } } := by
  norm_num [catchResponse, ServerError.statusCode, ServerError.statusMessage,
    ServerError.fileSizeString]

/-! ## The claims -/

/-- Claim C1, counterexample.  The claim says: every byte-range-set of two
or more ranges, each narrower than 64 KiB, supplied out of ascending order,
with some mutual overlap, scores at least 10 and is rejected with 416.  The
set `[{10,20}, {0,15}]` satisfies every hypothesis (two small ranges, start
offsets descending, overlapping on `[10,15]`), yet the scorer totals only
`2 + 2 + 3 = 7` with multiplier `1` — the multiplier condition
`check.end < value.start` cannot fire on a descending overlapping pair — so
the request is served with 206 rather than rejected. -/
theorem C1_counterexample :
    ([⟨10, 20⟩, ⟨0, 15⟩] : List ByteRange).length = 2 ∧
    (∀ r ∈ ([⟨10, 20⟩, ⟨0, 15⟩] : List ByteRange), r.«end» - r.start + 1 < 65536) ∧
    ¬ ascendingByStart [⟨10, 20⟩, ⟨0, 15⟩] ∧
    sharesAByte ⟨10, 20⟩ ⟨0, 15⟩ ∧
    isDenialOfServiceAttacks [⟨10, 20⟩, ⟨0, 15⟩] = false ∧
    (httpListener "GET" true "f.txt" ".txt" 1000 (some "bytes=10-20,0-15") "B").statusCode
      = 206 := by
  refine ⟨rfl, by decide, ?_, by decide, ?_, ?_⟩
  · simp [ascendingByStart, List.chain'_cons]
  · norm_num [isDenialOfServiceAttacks, dosEval, dosLoop, ownPoints, crossPoints, multUpdate,
      POINT_OF_NOT_SATISFABLE, POINT_SMALL_RANGE, POINT_CROSS_RANGE,
      POINT_NOT_SORTED_MULTIPLICATOR, SMALL_RANGE]
  · have hci : getContentInfo ".txt" = (true, "text") := by decide
    have hparse : parseRangeHeader "bytes=10-20,0-15" 1000 listenerOpts =
        .ok ([⟨10, 20⟩, ⟨0, 15⟩], 27) := by decide
    have hdos : isDenialOfServiceAttacks [⟨10, 20⟩, ⟨0, 15⟩] = false := by
      norm_num [isDenialOfServiceAttacks, dosEval, dosLoop, ownPoints, crossPoints, multUpdate,
        POINT_OF_NOT_SATISFABLE, POINT_SMALL_RANGE, POINT_CROSS_RANGE,
        POINT_NOT_SORTED_MULTIPLICATOR, SMALL_RANGE]
    have hget : getRanges "bytes=10-20,0-15" 1000 listenerOpts =
        .ok ([⟨10, 20⟩, ⟨0, 15⟩], 27) := by
      have hprev : listenerOpts.preventAtack = true := rfl
      simp [getRanges, hparse, hdos, hprev]
    simp [httpListener, hci, rangeBranch, hget]

/-- Claim C1, amended.  What the code does guarantee nearby: a set of at
least three ranges, each narrower than 64 KiB, in which every pair of
consecutive ranges overlaps in at least two byte positions, always scores
at least 10 (regardless of the order of the ranges) and, when it is the
parse result of the request's Range header, the request is rejected with
416 carrying `Content-Range: bytes */{fileSize}`. -/
theorem C1_amended (fileSize : Int) (set : List ByteRange)
    (h3 : 3 ≤ set.length)
    (hsmall : ∀ r ∈ set, r.«end» - r.start + 1 < 65536)
    (hchain : List.Chain' sharesTwoBytes set) :
    isDenialOfServiceAttacks set = true ∧
    ∀ (range fileName ext boundary : String) (len : Int),
      range ≠ "" → (getContentInfo ext).1 = true →
      parseRangeHeader range fileSize listenerOpts = .ok (set, len) →
      (httpListener "GET" true fileName ext fileSize (some range) boundary).statusCode = 416 ∧
      (httpListener "GET" true fileName ext fileSize (some range) boundary).headers.contentRange
        = some ("bytes */" ++ toString fileSize) := by
  have hdos : isDenialOfServiceAttacks set = true := by
    apply dos_true_of_sum
    cases set with
    | nil => simp at h3
    | cons v tl =>
      have hlen : 2 ≤ tl.length := by
        simpa using h3
      have hsm : v.«end» - v.start < SMALL_RANGE := by
        have := hsmall v (List.mem_cons_self v tl)
        unfold SMALL_RANGE; omega
      have hown : POINT_SMALL_RANGE ≤ ownPoints v := ownPoints_ge_two v hsm
      have hch : List.Chain sharesTwoBytes v tl := hchain
      have := dosLoop_chain_ge tl v (0 + ownPoints v) 1
        (fun r hr => hsmall r (List.mem_cons_of_mem v hr)) hch
      have hc : (10 : ℚ) ≤ 5 * tl.length := by
        have : (2 : ℚ) ≤ (tl.length : ℚ) := by exact_mod_cast hlen
        linarith
      simp only [dosEval]
      norm_num [POINT_SMALL_RANGE, POINT_OF_NOT_SATISFABLE] at hown this hc ⊢
      linarith
  refine ⟨hdos, ?_⟩
  intro range fileName ext boundary len hrh hsupp hparse
  have hget : getRanges range fileSize listenerOpts = .error (.rangeNotSatisfable fileSize) :=
    getRanges_error_of_dos range fileSize listenerOpts set len hparse rfl hdos
  rw [httpListener_range fileName ext fileSize range boundary hsupp hrh,
    rangeBranch_error _ _ _ _ _ _ hget, catchResponse_notSatisfable]
  exact ⟨rfl, rfl⟩

/-- Claim C1, witness for the amended theorem at the concrete set
`[{0,10}, {5,15}, {10,20}]` parsed from `bytes=0-10,5-15,10-20`. -/
theorem C1_amended_witness :
    isDenialOfServiceAttacks [⟨0, 10⟩, ⟨5, 15⟩, ⟨10, 20⟩] = true ∧
    (httpListener "GET" true "f.txt" ".txt" 1000 (some "bytes=0-10,5-15,10-20") "B").statusCode
        = 416 ∧
    (httpListener "GET" true "f.txt" ".txt" 1000
        (some "bytes=0-10,5-15,10-20") "B").headers.contentRange
      = some "bytes */1000" := by
  have h := C1_amended 1000 [⟨0, 10⟩, ⟨5, 15⟩, ⟨10, 20⟩] (by decide) (by decide)
    (by simp [List.chain'_cons, sharesTwoBytes])
  have h2 := h.2 "bytes=0-10,5-15,10-20" "f.txt" ".txt" "B" 33 (by decide) (by decide)
    (by decide)
  refine ⟨h.1, h2.1, ?_⟩
  rw [h2.2]
  decide

/-- Claim C2: the claim (and the source's own constant name
`POINT_NOT_SORTED_MULTIPLICATOR` and comment) say the sticky 1.5 multiplier
triggers the first time two consecutive parts are out of ascending order by
start offset.  The code tests `check.end < value.start`, which is the exact
opposite: it fires on an ascending *disjoint* pair and never on a
descending pair.  Evaluation at the two-part ascending set `[{0,10},
{20,30}]` (multiplier becomes 3/2) and its reversal (multiplier stays 1)
exhibits the divergence. -/
theorem C2_code_eval :
    ascendingByStart [⟨0, 10⟩, ⟨20, 30⟩] ∧
    (dosEval [⟨0, 10⟩, ⟨20, 30⟩]).2 = POINT_NOT_SORTED_MULTIPLICATOR ∧
    ¬ ascendingByStart [⟨20, 30⟩, ⟨0, 10⟩] ∧
    (dosEval [⟨20, 30⟩, ⟨0, 10⟩]).2 = 1 := by
  refine ⟨?_, ?_, ?_, ?_⟩
  · simp [ascendingByStart, List.chain'_cons]
  · norm_num [dosEval, dosLoop, multUpdate]
  · simp [ascendingByStart, List.chain'_cons]
  · norm_num [dosEval, dosLoop, multUpdate]

/-- Claim C3: the claim says a Range header whose unit is not `bytes`
yields a 416 *without* `Content-Range`.  The code does throw the
invalid-unit error, but the catch block selects the `Content-Range` header
by the *status code* 416, which the invalid-unit error shares with the
not-satisfiable error; since the invalid-unit error carries no `fileSize`
property, the response carries the nonsense header
`Content-Range: bytes */undefined`.  The satisfiability-rejection 416
(here from `bytes=5-2`) carries `bytes */1000` as the claim expects. -/
theorem C3_code_eval :
    getRanges "items=0-5" 1000 listenerOpts = .error .bytesUnitNotValid ∧
    (httpListener "GET" true "f.txt" ".txt" 1000 (some "items=0-5") "B").statusCode = 416 ∧
    (httpListener "GET" true "f.txt" ".txt" 1000 (some "items=0-5") "B").headers.contentRange
      = some "bytes */undefined" ∧
    (httpListener "GET" true "f.txt" ".txt" 1000 (some "bytes=5-2") "B").statusCode = 416 ∧
    (httpListener "GET" true "f.txt" ".txt" 1000 (some "bytes=5-2") "B").headers.contentRange
      = some "bytes */1000" := by
  have hci : getContentInfo ".txt" = (true, "text") := by decide
  have hget1 : getRanges "items=0-5" 1000 listenerOpts = .error .bytesUnitNotValid := by
    have hparse : parseRangeHeader "items=0-5" 1000 listenerOpts =
        .error .bytesUnitNotValid := by decide
    simp [getRanges, hparse]
  have hparse2 : parseRangeHeader "bytes=5-2" 1000 listenerOpts = .ok ([⟨5, 2⟩], -2) := by
    decide
  have hdos2 : isDenialOfServiceAttacks [⟨5, 2⟩] = true :=
    dos_true_of_invalid_mem _ ⟨5, 2⟩ (List.mem_singleton_self _) (by norm_num)
  have hget2 : getRanges "bytes=5-2" 1000 listenerOpts =
      .error (.rangeNotSatisfable 1000) :=
    getRanges_error_of_dos _ _ _ _ _ hparse2 rfl hdos2
  refine ⟨hget1, ?_, ?_, ?_, ?_⟩ <;>
  · simp [httpListener, hci, rangeBranch, hget1, hget2, catchResponse,
      ServerError.statusCode, ServerError.statusMessage, ServerError.fileSizeString]
    try decide

/-- Claim C4: under the default policy configuration every accepted
byte-range-set contains only ranges with `end ≥ start`; equivalently a set
containing a range with `start > end` is scored past the threshold and
`getRanges` rejects it with the not-satisfiable error (it is never
silently dropped). -/
theorem C4_policy_invariant (set : List ByteRange) :
    (isDenialOfServiceAttacks set = false → ∀ r ∈ set, r.start ≤ r.«end») ∧
    (∀ r ∈ set, r.start > r.«end» → isDenialOfServiceAttacks set = true) ∧
    (∀ (range : String) (fileSize len : Int) (opts : GetRangesOptions),
      opts.preventAtack = true →
      parseRangeHeader range fileSize opts = .ok (set, len) →
      (∃ r ∈ set, r.start > r.«end») →
      getRanges range fileSize opts = .error (.rangeNotSatisfable fileSize)) := by
  refine ⟨?_, ?_, ?_⟩
  · intro hfalse r hr
    by_contra hlt
    have : isDenialOfServiceAttacks set = true :=
      dos_true_of_invalid_mem set r hr (by omega)
    rw [this] at hfalse
    cases hfalse
  · intro r hr hinv
    exact dos_true_of_invalid_mem set r hr hinv
  · intro range fileSize len opts hprev hparse ⟨r, hr, hinv⟩
    exact getRanges_error_of_dos range fileSize opts set len hparse hprev
      (dos_true_of_invalid_mem set r hr hinv)

/-- Claim C4, witness at the set `[{5,2}]` parsed from `bytes=5-2`. -/
theorem C4_witness :
    isDenialOfServiceAttacks [⟨5, 2⟩] = true ∧
    getRanges "bytes=5-2" 10 {} = .error (.rangeNotSatisfable 10) := by
  have h := C4_policy_invariant [⟨5, 2⟩]
  refine ⟨h.2.1 ⟨5, 2⟩ (List.mem_singleton_self _) (by norm_num), ?_⟩
  exact h.2.2 "bytes=5-2" 10 (-2) {} rfl (by decide)
    ⟨⟨5, 2⟩, List.mem_singleton_self _, by norm_num⟩

/-- Claim C5: for an accepted multi-range request, the `Content-Length`
value the dispatcher computes (`ranges.length + partialHeaders.size +
endBoundary.length`) equals the measured length of the reconstructed body:
all part header blocks, all part bodies, and the closing boundary.  The
part bodies are abstract spans delivering exactly `end - start + 1` units,
as supplied by the filesystem collaborator. -/
theorem C5_multipart_content_length (range fileName ext boundary : String) (fileSize : Int)
    (set : List ByteRange) (len : Int) (spanBody : ByteRange → List Char)
    (hsupp : (getContentInfo ext).1 = true) (hrh : range ≠ "")
    (hget : getRanges range fileSize listenerOpts = .ok (set, len))
    (hmulti : 1 < set.length)
    (hspan : ∀ r ∈ set, ((spanBody r).length : Int) = r.«end» - r.start + 1) :
    (httpListener "GET" true fileName ext fileSize (some range) boundary).headers.contentLength
      = some (toString
        ((multipartAssembly set boundary (getContentInfo ext).2 fileSize spanBody).length
          : Int)) := by
  match set, hmulti with
  | a :: b :: rest, _ =>
    rw [httpListener_range fileName ext fileSize range boundary hsupp hrh,
      rangeBranch_multi _ _ _ _ _ a b rest len hget]
    have hparse := getRanges_ok_parse _ _ _ _ _ hget
    have hlen := parseRangeHeader_ok_len _ _ _ _ _ hparse
    have hsize := multipartHeadersAux_size boundary (getContentInfo ext).2 fileSize
      (a :: b :: rest) 0
    have hasm := multipartAssemblyAux_length boundary (getContentInfo ext).2 fileSize spanBody
      (a :: b :: rest) 0
    have hmap : ((a :: b :: rest).map (fun r => r.«end» - r.start + 1)).sum =
        ((a :: b :: rest).map (fun r => ((spanBody r).length : Int))).sum := by
      rw [List.map_congr_left (fun r hr => (hspan r hr).symm)]
    have hkey : len + (multipartContentHeaders (a :: b :: rest) boundary
          (getContentInfo ext).2 fileSize).2 + ((endBoundary boundary).length : Int) =
        ((multipartAssembly (a :: b :: rest) boundary (getContentInfo ext).2 fileSize
          spanBody).length : Int) := by
      unfold multipartContentHeaders multipartAssembly
      rw [hsize, hasm, hlen, hmap]
      ring
    exact congrArg (fun z : Int => some (toString z)) hkey

/-- Claim C5, witness: `bytes=0-4,5-9` on a 100-byte resource with
five-character span bodies. -/
theorem C5_witness :
    (httpListener "GET" true "f.txt" ".txt" 100 (some "bytes=0-4,5-9") "B").headers.contentLength
      = some (toString
        ((multipartAssembly [⟨0, 4⟩, ⟨5, 9⟩] "B" (getContentInfo ".txt").2 100
          (fun _ => ['x', 'x', 'x', 'x', 'x'])).length : Int)) := by
  have hparse : parseRangeHeader "bytes=0-4,5-9" 100 listenerOpts =
      .ok ([⟨0, 4⟩, ⟨5, 9⟩], 10) := by decide
  have hdos : isDenialOfServiceAttacks [⟨0, 4⟩, ⟨5, 9⟩] = false := by
    norm_num [isDenialOfServiceAttacks, dosEval, dosLoop, ownPoints, crossPoints, multUpdate,
      POINT_OF_NOT_SATISFABLE, POINT_SMALL_RANGE, POINT_CROSS_RANGE,
      POINT_NOT_SORTED_MULTIPLICATOR, SMALL_RANGE]
  have hget : getRanges "bytes=0-4,5-9" 100 listenerOpts = .ok ([⟨0, 4⟩, ⟨5, 9⟩], 10) := by
    have hprev : listenerOpts.preventAtack = true := rfl
    simp [getRanges, hparse, hdos, hprev]
  exact C5_multipart_content_length "bytes=0-4,5-9" "f.txt" ".txt" "B" 100
    [⟨0, 4⟩, ⟨5, 9⟩] 10 (fun _ => ['x', 'x', 'x', 'x', 'x'])
    (by decide) (by decide) hget (by decide) (by decide)

/-- Claim C6: with the source's default options, a suffix spec `-N`
(regex groups: empty start, end group `N`) with `0 < N ≤ fileSize` expands
to the single range `{fileSize - N, fileSize - 1}` with width `N`, and an
open-ended spec `S-` (start group `S`, empty end group) with
`0 ≤ S < fileSize` expands to the single range `{S, fileSize - 1}`. -/
theorem C6_suffix_open_ranges (fileSize : Int) (N S : Nat)
    (_hfs : 0 < fileSize) (_hN0 : 0 < N) (_hNle : (N : Int) ≤ fileSize)
    (_hS : (S : Int) < fileSize) :
    processItems fileSize {} [(none, some N)] =
      ([⟨fileSize - N, fileSize - 1⟩], (N : Int)) ∧
    processItems fileSize {} [(some S, none)] = ([⟨S, fileSize - 1⟩], fileSize - S) := by
  have h2 : processItem fileSize {} (none, some N) = ⟨fileSize - N, fileSize - 1⟩ := by
    simp [processItem, expandItem, limitItem, limitVal, truncateItem]
  have h3 : processItem fileSize {} (some S, none) = ⟨S, fileSize - 1⟩ := by
    simp [processItem, expandItem, limitItem, limitVal, truncateItem]
  constructor
  · rw [show processItems fileSize {} [(none, some N)] =
        ([processItem fileSize {} (none, some N)],
          (processItem fileSize {} (none, some N)).«end» -
            (processItem fileSize {} (none, some N)).start + 1 + 0) from rfl, h2]
    simp only [Prod.mk.injEq]
    exact ⟨trivial, by ring⟩
  · rw [show processItems fileSize {} [(some S, none)] =
        ([processItem fileSize {} (some S, none)],
          (processItem fileSize {} (some S, none)).«end» -
            (processItem fileSize {} (some S, none)).start + 1 + 0) from rfl, h3]
    simp only [Prod.mk.injEq]
    exact ⟨trivial, by ring⟩

/-- Claim C6, witness: `-100` and `900-` on a 1000-byte resource. -/
theorem C6_witness :
    processItems 1000 {} [(none, some 100)] = ([⟨900, 999⟩], 100) ∧
    processItems 1000 {} [(some 900, none)] = ([⟨900, 999⟩], 100) := by
  have h := C6_suffix_open_ranges 1000 100 900 (by norm_num) (by norm_num) (by norm_num)
    (by norm_num)
  refine ⟨?_, ?_⟩
  · rw [h.1]; decide
  · rw [h.2]; decide

/-- Claim C7, counterexample.  The claim says the 2 small-range points are
awarded exactly when a part's width is *below* 65536 bytes, so a part of
width exactly 65536 should receive none.  The code tests
`end - start < 65536`, i.e. width at most 65536: the full-64-KiB part
`{0, 65535}` (width 65536) does receive the 2 points. -/
theorem C7_counterexample :
    ¬ ((65535 : Int) - 0 + 1 < 65536) ∧
    (dosEval [⟨0, 65535⟩]).1 = POINT_SMALL_RANGE := by
  refine ⟨by norm_num, ?_⟩
  norm_num [dosEval, dosLoop, ownPoints, POINT_SMALL_RANGE, POINT_OF_NOT_SATISFABLE,
    SMALL_RANGE]

/-- Claim C7, amended: the scorer awards the 2 small-range points for a
part exactly when its width `end - start + 1` is at most 65536 bytes
(equivalently `end - start < 65536`); only parts of width 65537 or more
receive no small-range points.  Stated on a singleton set, which receives
exactly its invalid-order points plus its small-range points. -/
theorem C7_amended (s e : Int) :
    (dosEval [⟨s, e⟩]).1 =
      (if s > e then POINT_OF_NOT_SATISFABLE else 0) +
        (if e - s + 1 ≤ 65536 then POINT_SMALL_RANGE else 0) := by
  have h0 : dosEval [⟨s, e⟩] = (0 + ownPoints ⟨s, e⟩, 1) := rfl
  rw [h0]
  show 0 + ownPoints ⟨s, e⟩ = _
  rw [zero_add]
  unfold ownPoints SMALL_RANGE
  dsimp only
  split_ifs with h1 h2 h3 <;> first | rfl | (exfalso; omega)

/-- Claim C8, counterexample.  The claim says the 3 cross points are
awarded exactly when the union span of two consecutive parts is smaller
than the sum of their widths, and that sharing a single byte (previous end
equal to current start) counts as overlap.  For `{0,10}` and `{10,20}` the
union span (21) is smaller than the width sum (11 + 11 = 22) and byte 10 is
shared, yet the code — whose test drops the `+1` of the widths — awards no
cross points: the score is only the two small-range awards. -/
theorem C8_counterexample :
    sharesAByte ⟨0, 10⟩ ⟨10, 20⟩ ∧
    ((20 : Int) - 0 + 1) < ((10 : Int) - 0 + 1) + ((20 : Int) - 10 + 1) ∧
    (dosEval [⟨0, 10⟩, ⟨10, 20⟩]).1 = POINT_SMALL_RANGE + POINT_SMALL_RANGE := by
  refine ⟨by decide, by norm_num, ?_⟩
  norm_num [dosEval, dosLoop, ownPoints, crossPoints, multUpdate, POINT_SMALL_RANGE,
    POINT_OF_NOT_SATISFABLE, POINT_CROSS_RANGE, SMALL_RANGE]

/-- Claim C8, amended: for a consecutive pair the scorer adds the 3 cross
points exactly when `max(prev.end, cur.end) - min(prev.start, cur.start) <
(prev.end - prev.start) + (cur.end - cur.start)`, which solved means the
two closed intervals share at least *two* byte positions
(`max(starts) < min(ends)`); a pair sharing exactly one byte does not
count.  Stated on a two-element set. -/
theorem C8_amended (p c : ByteRange) :
    (dosEval [p, c]).1 = ownPoints p + ownPoints c +
      (if sharesTwoBytes p c then POINT_CROSS_RANGE else 0) := by
  have h0 : dosEval [p, c] =
      (0 + ownPoints p + ownPoints c + crossPoints p c, multUpdate p c 1) := rfl
  rw [h0]
  show 0 + ownPoints p + ownPoints c + crossPoints p c = _
  rw [crossPoints_eq, zero_add]

/-- Claim C9: when a parsed range's width exceeds the configured (positive)
maximum chunk length, `end` is reduced to `start + maxChunkLength - 1`,
giving width exactly the maximum; a range within the maximum is left
untouched (never re-expanded); and the accumulated `length` sums the
post-truncation widths of all parts. -/
theorem C9_truncation (L : Int) (r : ByteRange) (fileSize : Int) (opts : GetRangesOptions)
    (gs : List (Option Nat × Option Nat)) (hL : 0 < L) :
    (L < r.«end» - r.start + 1 →
      truncateItem L r = ⟨r.start, r.start + L - 1⟩ ∧ (r.start + L - 1) - r.start + 1 = L) ∧
    (r.«end» - r.start + 1 ≤ L → truncateItem L r = r) ∧
    (processItems fileSize opts gs).2 =
      (((processItems fileSize opts gs).1).map (fun q => q.«end» - q.start + 1)).sum := by
  refine ⟨?_, ?_, processItems_len fileSize opts gs⟩
  · intro hw
    refine ⟨?_, by ring⟩
    unfold truncateItem
    rw [if_pos ⟨by omega, by omega⟩]
  · intro hw
    unfold truncateItem
    rw [if_neg]
    rintro ⟨-, h2⟩
    omega

/-- Claim C9, witness: the listener's 512-KiB maximum applied to the
over-wide range `{0, 999999}`, and the length accumulator on a concrete
parse. -/
theorem C9_witness :
    truncateItem 524288 ⟨0, 999999⟩ = ⟨0, 524287⟩ ∧
    (processItems 1000 {} [(some 0, some 9)]).2 =
      (((processItems 1000 {} [(some 0, some 9)]).1).map
        (fun q => q.«end» - q.start + 1)).sum := by
  have h := C9_truncation 524288 ⟨0, 999999⟩ 1000 {} [(some 0, some 9)] (by norm_num)
  refine ⟨?_, h.2.2⟩
  rw [(h.1 (by norm_num)).1]
  norm_num [ByteRange.mk.injEq]

/-- Claim C10: for an accepted single-range request the `Content-Length`
header keeps the value set during initial header preparation — the full
file size — and is never updated to the width of the delivered range; the
single-range branch only adds `Content-Range` and sets status 206. -/
theorem C10_single_range_content_length (fileName ext rh boundary : String)
    (fileSize len : Int) (r : ByteRange)
    (hsupp : (getContentInfo ext).1 = true) (hrh : rh ≠ "")
    (hget : getRanges rh fileSize listenerOpts = .ok ([r], len)) :
    (httpListener "GET" true fileName ext fileSize (some rh) boundary).statusCode = 206 ∧
    (httpListener "GET" true fileName ext fileSize (some rh) boundary).headers.contentRange
      = some ("bytes " ++ toString r.start ++ "-" ++ toString r.«end» ++ "/" ++
          toString fileSize) ∧
    (httpListener "GET" true fileName ext fileSize (some rh) boundary).headers.contentLength
      = some (toString fileSize) := by
  rw [httpListener_range fileName ext fileSize rh boundary hsupp hrh,
    rangeBranch_single _ _ _ _ _ r len hget]
  exact ⟨rfl, rfl, rfl⟩

/-- Claim C10, witness: `bytes=0-99` on a 1000-byte resource keeps
`Content-Length: 1000` although only 100 bytes are delivered. -/
theorem C10_witness :
    (httpListener "GET" true "f.txt" ".txt" 1000 (some "bytes=0-99") "B").statusCode = 206 ∧
    (httpListener "GET" true "f.txt" ".txt" 1000 (some "bytes=0-99") "B").headers.contentRange
      = some "bytes 0-99/1000" ∧
    (httpListener "GET" true "f.txt" ".txt" 1000 (some "bytes=0-99") "B").headers.contentLength
      = some "1000" := by
  have hparse : parseRangeHeader "bytes=0-99" 1000 listenerOpts = .ok ([⟨0, 99⟩], 100) := by
    decide
  have hdos : isDenialOfServiceAttacks [⟨0, 99⟩] = false := by
    norm_num [isDenialOfServiceAttacks, dosEval, dosLoop, ownPoints, crossPoints, multUpdate,
      POINT_OF_NOT_SATISFABLE, POINT_SMALL_RANGE, POINT_CROSS_RANGE,
      POINT_NOT_SORTED_MULTIPLICATOR, SMALL_RANGE]
  have hget : getRanges "bytes=0-99" 1000 listenerOpts = .ok ([⟨0, 99⟩], 100) := by
    have hprev : listenerOpts.preventAtack = true := rfl
    simp [getRanges, hparse, hdos, hprev]
  have h := C10_single_range_content_length "f.txt" ".txt" "bytes=0-99" "B" 1000 100 ⟨0, 99⟩
    (by decide) (by decide) hget
  refine ⟨h.1, ?_, ?_⟩
  · rw [h.2.1]; decide
  · rw [h.2.2]; decide

/-! ## Supporting string-level checks of the grammar (spec §8 examples) -/

theorem getRanges_suffix_string : getRanges "bytes=-100" 1000 {} = .ok ([⟨900, 999⟩], 100) := by
  have hparse : parseRangeHeader "bytes=-100" 1000 {} = .ok ([⟨900, 999⟩], 100) := by decide
  have hdos : isDenialOfServiceAttacks [⟨900, 999⟩] = false := by
    norm_num [isDenialOfServiceAttacks, dosEval, dosLoop, ownPoints, crossPoints, multUpdate,
      POINT_OF_NOT_SATISFABLE, POINT_SMALL_RANGE, POINT_CROSS_RANGE,
      POINT_NOT_SORTED_MULTIPLICATOR, SMALL_RANGE]
  have hprev : GetRangesOptions.preventAtack {} = true := rfl
  simp [getRanges, hparse, hdos, hprev]

theorem getRanges_open_string : getRanges "bytes=900-" 1000 {} = .ok ([⟨900, 999⟩], 100) := by
  have hparse : parseRangeHeader "bytes=900-" 1000 {} = .ok ([⟨900, 999⟩], 100) := by decide
  have hdos : isDenialOfServiceAttacks [⟨900, 999⟩] = false := by
    norm_num [isDenialOfServiceAttacks, dosEval, dosLoop, ownPoints, crossPoints, multUpdate,
      POINT_OF_NOT_SATISFABLE, POINT_SMALL_RANGE, POINT_CROSS_RANGE,
      POINT_NOT_SORTED_MULTIPLICATOR, SMALL_RANGE]
  have hprev : GetRangesOptions.preventAtack {} = true := rfl
  simp [getRanges, hparse, hdos, hprev]

theorem getRanges_pair_string :
    getRanges "bytes=0-0,-1" 1000 {} = .ok ([⟨0, 0⟩, ⟨999, 999⟩], 2) := by
  have hparse : parseRangeHeader "bytes=0-0,-1" 1000 {} = .ok ([⟨0, 0⟩, ⟨999, 999⟩], 2) := by
    decide
  have hdos : isDenialOfServiceAttacks [⟨0, 0⟩, ⟨999, 999⟩] = false := by
    norm_num [isDenialOfServiceAttacks, dosEval, dosLoop, ownPoints, crossPoints, multUpdate,
      POINT_OF_NOT_SATISFABLE, POINT_SMALL_RANGE, POINT_CROSS_RANGE,
      POINT_NOT_SORTED_MULTIPLICATOR, SMALL_RANGE]
  have hprev : GetRangesOptions.preventAtack {} = true := rfl
  simp [getRanges, hparse, hdos, hprev]
